import Mathlib

/-!
A verification development for the streaming bridge in `proxy/relay_server.py`
(Claude Code Relay).  The Python source is shallowly embedded: pure helpers
become Lean functions, the SSE generator becomes a function from its inputs
(launch outcome, subprocess output lines with observation timestamps, stderr
tail) to the list of SSE items it yields, and `json.loads` is modelled as an
oracle attached to each line (a line carries its raw text together with its
parse result, `none` meaning the parse raised).  Wall-clock readings are
rationals; machine integers in the source are unbounded Python ints, so `Int`
and `Nat` are used directly.
-/

/-- A JSON value, as produced by `json.loads` / consumed by `json.dumps`.
Objects are association lists standing for the parsed `dict` (keys unique in
values that actually arise from parsing); numbers are restricted to integers,
which covers every payload the relay builds. -/
inductive JValue where
  | null : JValue
  | bool (b : Bool) : JValue
  | num (n : Int) : JValue
  | str (s : String) : JValue
  | arr (elems : List JValue) : JValue
  | obj (fields : List (String × JValue)) : JValue

/-- `d.get(key)` on the dict modelled by an association list (first match). -/
def jlookup : List (String × JValue) → String → Option JValue
  | [], _ => none
  | (k, v) :: rest, key => if k = key then some v else jlookup rest key

/-- One decimal digit as a character. -/
def digitChar : Nat → Char
  | 0 => '0' | 1 => '1' | 2 => '2' | 3 => '3' | 4 => '4'
  | 5 => '5' | 6 => '6' | 7 => '7' | 8 => '8' | _ => '9'

/-- Decimal digits of a natural number, accumulated (models `repr` of a
nonnegative Python int). -/
def natDigitsAux (n : Nat) (acc : List Char) : List Char :=
  if n < 10 then digitChar n :: acc
  else natDigitsAux (n / 10) (digitChar (n % 10) :: acc)
termination_by n
decreasing_by exact Nat.div_lt_self (by omega) (by omega)

/-- `repr` of a Python int, as used by `json.dumps` for integers. -/
def intChars (n : Int) : List Char :=
  if n < 0 then '-' :: natDigitsAux (-n).toNat [] else natDigitsAux n.toNat []

/-- One hexadecimal digit as a character (lowercase, as in `json.dumps`). -/
def hexDigit : Nat → Char
  | 0 => '0' | 1 => '1' | 2 => '2' | 3 => '3' | 4 => '4'
  | 5 => '5' | 6 => '6' | 7 => '7' | 8 => '8' | 9 => '9'
  | 10 => 'a' | 11 => 'b' | 12 => 'c' | 13 => 'd' | 14 => 'e' | _ => 'f'

/-- How `json.dumps(..., ensure_ascii=False)` escapes one character inside a
JSON string: quote, backslash and the named control characters get two-char
escapes, the remaining characters below 0x20 get a `\u00XX` escape, and
everything else passes through verbatim. -/
def escapeChar (c : Char) : List Char :=
  if c = '"' then ['\\', '"']
  else if c = '\\' then ['\\', '\\']
  else if c = '\n' then ['\\', 'n']
  else if c = '\r' then ['\\', 'r']
  else if c = '\t' then ['\\', 't']
  else if c.toNat = 8 then ['\\', 'b']
  else if c.toNat = 12 then ['\\', 'f']
  else if c.toNat < 32 then ['\\', 'u', '0', '0', hexDigit (c.toNat / 16), hexDigit (c.toNat % 16)]
  else [c]

/-- The JSON string literal for `s` (quotes plus escaped content). -/
def strChars (s : String) : List Char :=
  '"' :: (s.data.map escapeChar).flatten ++ ['"']

mutual

/-- `json.dumps(v, ensure_ascii=False)` with the default separators
`", "` and `": "` (no `indent`, hence no pretty-printing). -/
def dumps : JValue → List Char
  | .null => "null".data
  | .bool true => "true".data
  | .bool false => "false".data
  | .num n => intChars n
  | .str s => strChars s
  | .arr es => '[' :: dumpsElems es ++ [']']
  | .obj fs => '\x7b' :: dumpsFields fs ++ ['\x7d']

/-- Array elements joined by `", "`. -/
def dumpsElems : List JValue → List Char
  | [] => []
  | [v] => dumps v
  | v :: w :: rest => dumps v ++ ',' :: ' ' :: dumpsElems (w :: rest)

/-- Object members `"key": value` joined by `", "`. -/
def dumpsFields : List (String × JValue) → List Char
  | [] => []
  | [(k, v)] => strChars k ++ ':' :: ' ' :: dumps v
  | (k, v) :: p :: rest => strChars k ++ ':' :: ' ' :: dumps v ++ ',' :: ' ' :: dumpsFields (p :: rest)

end

/-- A typed SSE unit handed to `_iter_sse`: the event name plus the optional
`"data"` payload (`it.get("data", \x7b\x7d)` defaults a missing payload to the
empty object). -/
structure SSEItem where
  event : String
  data : Option JValue

/-- The payload `_iter_sse` serializes for an item. -/
def payloadOf (it : SSEItem) : JValue := it.data.getD (.obj [])

/-- `_iter_sse` for a single item: the concatenation of the two yielded
chunks, the event line and the data line with its terminating blank line. -/
def sseFrame (it : SSEItem) : List Char :=
  ("event: ".data ++ it.event.data ++ ['\n']) ++
    ("data: ".data ++ dumps (payloadOf it) ++ ['\n', '\n'])

/-- `_iter_sse` over a list of items: all frames, in order. -/
def iterSSE (items : List SSEItem) : List Char :=
  (items.map sseFrame).flatten

/-- The `message_start` item yielded at line 121 of the source. -/
def messageStartItem : SSEItem :=
  ⟨"message_start", some (.obj [("type", .str "message_start"),
    ("message", .obj [("id", .str "msg_1"), ("type", .str "message"),
      ("role", .str "assistant")])])⟩

/-- The `content_block_start` item yielded at line 122 of the source. -/
def contentBlockStartItem : SSEItem :=
  ⟨"content_block_start", some (.obj [("type", .str "content_block_start"),
    ("index", .num 0),
    ("content_block", .obj [("type", .str "text"), ("text", .str "")])])⟩

/-- A `content_block_delta` item carrying the text `t` (the source builds the
same dict at lines 141, 189 and 209; the per-line newline or the stderr marker
is already part of `t` here, exactly as at each call site). -/
def deltaItem (t : String) : SSEItem :=
  ⟨"content_block_delta", some (.obj [("type", .str "content_block_delta"),
    ("index", .num 0),
    ("delta", .obj [("type", .str "text_delta"), ("text", .str t)])])⟩

/-- The `content_block_stop` closing item. -/
def contentBlockStopItem : SSEItem :=
  ⟨"content_block_stop", some (.obj [("type", .str "content_block_stop"),
    ("index", .num 0)])⟩

/-- The `message_delta` closing item, with the zeroed usage object. -/
def messageDeltaItem : SSEItem :=
  ⟨"message_delta", some (.obj [("type", .str "message_delta"),
    ("delta", .obj []),
    ("usage", .obj [("input_tokens", .num 0), ("output_tokens", .num 0)])])⟩

/-- The `message_stop` closing item. -/
def messageStopItem : SSEItem :=
  ⟨"message_stop", some (.obj [("type", .str "message_stop")])⟩

/-- The two opening items every stream starts with. -/
def openingItems : List SSEItem := [messageStartItem, contentBlockStartItem]

/-- The three closing items every cleanly-ended stream finishes with. -/
def closingItems : List SSEItem :=
  [contentBlockStopItem, messageDeltaItem, messageStopItem]

/-- `ev.get("type") == k` for a parsed object: true exactly when the `"type"`
field is present and is the string `k`. -/
def typeIs (fields : List (String × JValue)) (k : String) : Bool :=
  match jlookup fields "type" with
  | some (.str t) => t = k
  | _ => false

/-- The `else` arm of the pretty-printing chain (line 182 of the source):
`text_out = ev.get("type", "event")`.  A present string kind becomes the
fragment; a missing kind yields the default `"event"`; a present non-string
kind makes the later `text_out + "\n"` (line 189) raise `TypeError`, which
escapes the generator — modelled as `none`. -/
def translateOther (fields : List (String × JValue)) : Option (String × Bool) :=
  match jlookup fields "type" with
  | some (.str k) => some (k, false)
  | none => some ("event", false)
  | some _ => none

/-- The pretty-printing chain of lines 174-182 for a line that parsed to a
JSON object.  Result: the text fragment plus a flag marking that
`last_turn_completed` is to be recorded now; `none` models the `TypeError`
escape described at `translateOther`. -/
def translateObj (s : String) (fields : List (String × JValue)) : Option (String × Bool) :=
  match jlookup fields "item" with
  | some (.obj itemFields) =>
    if typeIs fields "item.completed" then
      match jlookup itemFields "type", jlookup itemFields "text" with
      | some (.str ity), some (.str t) =>
        if ity = "agent_message" ∨ ity = "reasoning" then some (t, false)
        else some (s, false)
      | _, _ => some (s, false)
    else if typeIs fields "turn.completed" then some ("[turn.completed]", true)
    else translateOther fields
  | _ =>
    if typeIs fields "turn.completed" then some ("[turn.completed]", true)
    else translateOther fields

/-- Lines 168-186 of the source for one non-empty stripped line `s` with
parse result `parsed` (`none` = `json.loads` raised, caught by the
`except Exception: pass`): the computed `text_out` plus the
record-last-turn-completed flag.  A parse success that is not an object makes
`ev.get` raise `AttributeError` inside the `try`, also caught — raw
passthrough.  In non-pretty mode every line passes through raw. -/
def translateLine (pretty : Bool) (s : String) (parsed : Option JValue) : Option (String × Bool) :=
  match parsed with
  | none => some (s, false)
  | some ev =>
    if pretty then
      match ev with
      | .obj fields => translateObj s fields
      | _ => some (s, false)
    else some (s, false)

/-- The two cutoff checks at lines 192-200, run after each line: break when
`hard_cut` is truthy (nonzero) and strictly more than `hard_cut` seconds have
elapsed since `start`, or when `last_turn_completed` is truthy (set, and — by
Python float truthiness — nonzero) and at least `idle_after` seconds have
elapsed since it. -/
def cutoffDecision (hardCut idleAfter : Int) (start : ℚ) (lastTurn : Option ℚ)
    (tHard tIdle : ℚ) : Bool :=
  if hardCut ≠ 0 ∧ tHard - start > (hardCut : ℚ) then true
  else
    match lastTurn with
    | some u => u ≠ 0 ∧ tIdle - u ≥ (idleAfter : ℚ)
    | none => false

/-- `last_turn_completed = time.time()` at line 179, applied by the loop:
overwrite when the translated line was a `turn.completed` marker. -/
def nextLastTurn (isTurn : Bool) (tMark : ℚ) (old : Option ℚ) : Option ℚ :=
  if isTurn then some tMark else old

/-- One subprocess stdout line as observed by the read loop: the decoded and
stripped text `raw`, its `json.loads` outcome `parsed`, and the three
`time.time()` readings the iteration can take (at line 179 when a marker is
recorded, at the line-192 hard-cutoff check, at the line-198 idle check). -/
structure LineIn where
  raw : String
  parsed : Option JValue
  tMark : ℚ
  tHard : ℚ
  tIdle : ℚ

/-- The read loop of lines 161-200: for each line, a non-empty `s` is
translated and yielded as one `content_block_delta` (with a trailing newline
appended to the fragment); then the two cutoff checks run.  Returns the items
yielded together with an aborted flag: `true` means the `TypeError` of
line 189 escaped the generator, ending the stream with no further items. -/
def runLoop (pretty : Bool) (hardCut idleAfter : Int) (start : ℚ) :
    Option ℚ → List LineIn → List SSEItem × Bool
  | _, [] => ([], false)
  | lastTurn, l :: rest =>
    if l.raw = "" then
      if cutoffDecision hardCut idleAfter start lastTurn l.tHard l.tIdle then ([], false)
      else runLoop pretty hardCut idleAfter start lastTurn rest
    else
      match translateLine pretty l.raw l.parsed with
      | none => ([], true)
      | some (t, isTurn) =>
        let lastTurn' := nextLastTurn isTurn l.tMark lastTurn
        let d := deltaItem (t ++ "\n")
        if cutoffDecision hardCut idleAfter start lastTurn' l.tHard l.tIdle then ([d], false)
        else
          let r := runLoop pretty hardCut idleAfter start lastTurn' rest
          (d :: r.1, r.2)

/-- How `subprocess.Popen` at line 133 can end: success, the
`FileNotFoundError` the source catches, or any other exception (for example
`PermissionError`), which the source does not catch. -/
inductive LaunchOutcome where
  | ok : LaunchOutcome
  | notFound : LaunchOutcome
  | otherError : LaunchOutcome

/-- The in-stream error text of line 138. -/
def codexNotFoundMsg : String :=
  "Codex CLI not found. Please `npm i -g @openai/codex` then `codex login`."

/-- Python whitespace for `str.strip()` and the regex `\s` class (ASCII
range; the source never feeds the exotic Unicode whitespace anywhere a claim
depends on). -/
def pySpace (c : Char) : Bool :=
  c = ' ' ∨ c = '\t' ∨ c = '\n' ∨ c = '\x0d' ∨ c = '\x0b' ∨ c = '\x0c'

/-- Remove the characters satisfying `p` from both ends of a list
(`str.strip(chars)`). -/
def stripWith (p : Char → Bool) (l : List Char) : List Char :=
  ((l.dropWhile p).reverse.dropWhile p).reverse

/-- `s.strip()` on a Python string. -/
def stripWsStr (s : String) : String := String.mk (stripWith pySpace s.data)

/-- Lines 202-210: after the loop, a non-blank decoded stderr tail `t`
(already sliced to its last 2000 characters by the caller of this model) is
forwarded as one extra delta prefixed by the diagnostic marker. -/
def stderrItems (t : String) : List SSEItem :=
  if stripWsStr t ≠ "" then [deltaItem ("\n[Codex stderr]\n" ++ t)] else []

/-- The whole `generate()` generator (lines 118-216) as a function of its
inputs: the launch outcome, pretty flag, cutoff settings, the `time.time()`
reading at line 157, the stdout lines (with their timestamps) that the
subprocess would deliver, and the decoded stderr tail.  Result: the SSE items
yielded, plus an aborted flag (`true` when an uncaught exception ended the
generator before the closing items). -/
def runGenerate (launch : LaunchOutcome) (pretty : Bool) (hardCut idleAfter : Int)
    (start : ℚ) (lines : List LineIn) (stderrTail : String) : List SSEItem × Bool :=
  match launch with
  | .notFound => (openingItems ++ [deltaItem codexNotFoundMsg] ++ closingItems, false)
  | .otherError => (openingItems, true)
  | .ok =>
    let r := runLoop pretty hardCut idleAfter start none lines
    if r.2 then (openingItems ++ r.1, true)
    else (openingItems ++ r.1 ++ stderrItems stderrTail ++ closingItems, false)

/-- `idle_after = max(1, int(CFG.get("CODEX_IDLE_AFTER_TURN_SEC","10") or "10"))`. -/
def idleAfterOf (i : Int) : Int := max 1 i

/-- `hard_cut = max(0, int(CFG.get("CODEX_MAX_RUN_SEC","0") or "0"))`. -/
def hardCutOf (i : Int) : Int := max 0 i

/-- Match the pattern `working directory:` case-insensitively (Python
`re.I`, ASCII case folding as in the source's all-ASCII marker) against a
prefix of `text`; on success return the remaining text. -/
def caseMatch : List Char → List Char → Option (List Char)
  | [], rest => some rest
  | _ :: _, [] => none
  | m :: ms, c :: cs => if c.toLower = m then caseMatch ms cs else none

/-- The marker pattern of line 50, lowercased. -/
def markerChars : List Char := "working directory:".data

/-- The group captured by `\s*(.+)` against `rest` (the text after the
marker), following the regex engine's greedy-with-backtracking order:
`\s*` first takes the maximal whitespace prefix; if a character remains,
`.+` takes everything up to the next newline; otherwise `\s*` backs off to
the last non-newline whitespace character, which `.+` then captures alone;
if even that fails (the remainder is empty or all newlines) there is no
match at this position. -/
def groupAfterColon (rest : List Char) : Option (List Char) :=
  let r := rest.dropWhile pySpace
  if r ≠ [] then some (r.takeWhile (fun c => c ≠ '\n'))
  else
    match (rest.takeWhile pySpace).reverse.dropWhile (fun c => c = '\n') with
    | [] => none
    | c :: _ => some [c]

/-- `re.search` for `Working directory:\s*(.+)` with `re.I`: scan positions
left to right, return the group of the first position where the whole
pattern matches. -/
def searchAux : List Char → Option (List Char)
  | [] => none
  | c :: cs =>
    match caseMatch markerChars (c :: cs) with
    | some rest =>
      (match groupAfterColon rest with
       | some g => some g
       | none => searchAux cs)
    | none => searchAux cs

/-- `_parse_cwd_from_prompt` on the character list: the captured group with
whitespace, then double quotes, then single quotes stripped from both ends
(`m.group(1).strip().strip(dquote).strip(squote)`). -/
def parse_cwd_chars (text : List Char) : Option (List Char) :=
  (searchAux text).map (fun g =>
    stripWith (fun c => c = Char.ofNat 39) (stripWith (fun c => c = '"') (stripWith pySpace g)))

/-- `_parse_cwd_from_prompt` (lines 49-52). -/
def parse_cwd_from_prompt (text : String) : Option String :=
  (parse_cwd_chars text.data).map String.mk

/-- Steps 2 and 3 of `_select_cwd`: the stripped `CODEX_WORKDIR` if truthy
and existing, else the process working directory.  `fs` is the filesystem
oracle standing for `Path(...).exists()`. -/
def selectEnvFallback (fs : String → Bool) (cfgWorkdir : String) (procCwd : String) : String :=
  let env := stripWsStr cfgWorkdir
  if env ≠ "" ∧ fs env then env else procCwd

/-- `_select_cwd` (lines 54-64): the prompt-marker path if truthy and
existing, else the configured default if truthy and existing, else the
process working directory.  Total — the Python function raises nothing. -/
def select_cwd (fs : String → Bool) (cfgWorkdir : String) (procCwd : String)
    (promptText : String) : String :=
  match parse_cwd_from_prompt promptText with
  | some cand => if cand ≠ "" ∧ fs cand then cand else selectEnvFallback fs cfgWorkdir procCwd
  | none => selectEnvFallback fs cfgWorkdir procCwd

/-- Python truthiness of a parsed JSON value (`body or \x7b\x7d` at
line 87/98). -/
def pyFalsy : JValue → Bool
  | .null => true
  | .bool b => !b
  | .num n => n = 0
  | .str s => s = ""
  | .arr es => es.isEmpty
  | .obj fs => fs.isEmpty

/-- The `count_tokens` handler (lines 84-94): `request.get_json(force=True,
silent=True)` yields `none` for an unparsable body (no exception), `or \x7b\x7d`
replaces a falsy result by the empty object, and the estimate is
`max(32, int(len(json.dumps(body, ensure_ascii=False))/4))` — `len` of a
Python `str`, i.e. a count of characters.  The `except` branch returning 128
is unreachable on this path since nothing in the `try` raises. -/
def count_tokens_resp (parsed : Option JValue) : Nat × Nat :=
  let body := match parsed with
    | none => JValue.obj []
    | some v => if pyFalsy v then JValue.obj [] else v
  (max 32 ((dumps body).length / 4), 0)

/-- The UTF-8 byte length of a character list (what "byte-length of the
serialized body" would be). -/
def utf8Length (l : List Char) : Nat := (l.map Char.utf8Size).sum

/-- Structural induction for `JValue` that passes through the nested lists. -/
theorem JValue.inductionOn (motive : JValue → Prop)
    (hnull : motive .null) (hbool : ∀ b, motive (.bool b))
    (hnum : ∀ n, motive (.num n)) (hstr : ∀ s, motive (.str s))
    (harr : ∀ es, (∀ v ∈ es, motive v) → motive (.arr es))
    (hobj : ∀ fs, (∀ kv ∈ fs, motive kv.2) → motive (.obj fs)) :
    ∀ v, motive v
  | .null => hnull
  | .bool b => hbool b
  | .num n => hnum n
  | .str s => hstr s
  | .arr es => harr es (fun v hv =>
      JValue.inductionOn motive hnull hbool hnum hstr harr hobj v)
  | .obj fs => hobj fs (fun kv hkv =>
      JValue.inductionOn motive hnull hbool hnum hstr harr hobj kv.2)
termination_by v => sizeOf v
decreasing_by
  · have h := List.sizeOf_lt_of_mem hv
    simp only [JValue.arr.sizeOf_spec]
    omega
  · have h := List.sizeOf_lt_of_mem hkv
    obtain ⟨k, v⟩ := kv
    simp only [JValue.obj.sizeOf_spec]
    simp only [Prod.mk.sizeOf_spec] at h
    omega

theorem digitChar_ne_newline (d : Nat) : digitChar d ≠ '\n' := by
  unfold digitChar
  split <;> decide

theorem hexDigit_ne_newline (d : Nat) : hexDigit d ≠ '\n' := by
  unfold hexDigit
  split <;> decide

theorem natDigitsAux_ne_newline (n : Nat) :
    ∀ acc, (∀ c ∈ acc, c ≠ '\n') → ∀ c ∈ natDigitsAux n acc, c ≠ '\n' := by
  induction n using Nat.strong_induction_on with
  | _ n ih =>
    intro acc hacc c hc
    rw [natDigitsAux] at hc
    by_cases h : n < 10
    · simp only [if_pos h] at hc
      rcases List.mem_cons.mp hc with h1 | h1
      · exact h1 ▸ digitChar_ne_newline n
      · exact hacc c h1
    · simp only [if_neg h] at hc
      refine ih (n / 10) (Nat.div_lt_self (by omega) (by omega)) _ ?_ c hc
      intro d hd
      rcases List.mem_cons.mp hd with h1 | h1
      · exact h1 ▸ digitChar_ne_newline (n % 10)
      · exact hacc d h1

theorem intChars_ne_newline (n : Int) : ∀ c ∈ intChars n, c ≠ '\n' := by
  intro c hc
  unfold intChars at hc
  split at hc
  · rcases List.mem_cons.mp hc with h1 | h1
    · exact h1 ▸ (by decide)
    · exact natDigitsAux_ne_newline _ [] (by simp) c h1
  · exact natDigitsAux_ne_newline _ [] (by simp) c hc

theorem escapeChar_ne_newline (c0 : Char) : ∀ c ∈ escapeChar c0, c ≠ '\n' := by
  intro c hc
  unfold escapeChar at hc
  split_ifs at hc with h1 h2 h3 h4 h5 h6 h7 h8
  all_goals simp only [List.mem_cons, List.not_mem_nil, or_false] at hc
  all_goals repeat' (rcases hc with hc | hc)
  all_goals first
    | decide
    | (subst hc; decide)
    | (subst hc; exact hexDigit_ne_newline _)
    | (exact hexDigit_ne_newline _)
    | (subst hc; intro hcontra; subst hcontra; exact h8 (by decide))
    | (intro hcontra; subst hcontra; exact h8 (by decide))

theorem strChars_ne_newline (s : String) : ∀ c ∈ strChars s, c ≠ '\n' := by
  intro c hc
  unfold strChars at hc
  rcases List.mem_cons.mp hc with h | h
  · exact h ▸ (by decide)
  · rcases List.mem_append.mp h with h1 | h1
    · obtain ⟨l, hl, hcl⟩ := List.mem_flatten.mp h1
      obtain ⟨c0, _, rfl⟩ := List.mem_map.mp hl
      exact escapeChar_ne_newline c0 c hcl
    · simp only [List.mem_cons, List.not_mem_nil, or_false] at h1
      exact h1 ▸ (by decide)

theorem dumpsElems_ne_newline :
    ∀ es, (∀ v ∈ es, ∀ c ∈ dumps v, c ≠ '\n') → ∀ c ∈ dumpsElems es, c ≠ '\n' := by
  intro es
  induction es with
  | nil => intro _ c hc; simp [dumpsElems] at hc
  | cons v rest ih =>
    intro h c hc
    cases rest with
    | nil =>
      rw [dumpsElems] at hc
      exact h v (by simp) c hc
    | cons w rest' =>
      rw [dumpsElems] at hc
      rcases List.mem_append.mp hc with h1 | h1
      · exact h v (by simp) c h1
      · rcases List.mem_cons.mp h1 with h2 | h2
        · exact h2 ▸ (by decide)
        · rcases List.mem_cons.mp h2 with h3 | h3
          · exact h3 ▸ (by decide)
          · exact ih (fun u hu => h u (List.mem_cons_of_mem v hu)) c h3

theorem dumpsFields_ne_newline :
    ∀ fs, (∀ kv ∈ fs, ∀ c ∈ dumps kv.2, c ≠ '\n') → ∀ c ∈ dumpsFields fs, c ≠ '\n' := by
  intro fs
  induction fs with
  | nil => intro _ c hc; simp [dumpsFields] at hc
  | cons kv rest ih =>
    obtain ⟨k, v⟩ := kv
    intro h c hc
    cases rest with
    | nil =>
      rw [dumpsFields] at hc
      simp only [List.mem_append, List.mem_cons, List.not_mem_nil, or_false,
        or_assoc] at hc
      rcases hc with hc | hc | hc | hc
      · exact strChars_ne_newline k c hc
      · subst hc; decide
      · subst hc; decide
      · exact h (k, v) (by simp) c hc
    | cons p rest' =>
      rw [dumpsFields] at hc
      simp only [List.mem_append, List.mem_cons, List.not_mem_nil, or_false,
        or_assoc] at hc
      rcases hc with hc | hc | hc | hc | hc | hc | hc
      · exact strChars_ne_newline k c hc
      · subst hc; decide
      · subst hc; decide
      · exact h (k, v) (by simp) c hc
      · subst hc; decide
      · subst hc; decide
      · exact ih (fun u hu => h u (List.mem_cons_of_mem _ hu)) c hc

/-- The serialized JSON of any value contains no literal newline: every
newline in a string value is escaped, and no separator introduces one. -/
theorem dumps_ne_newline : ∀ v : JValue, ∀ c ∈ dumps v, c ≠ '\n' := by
  intro v
  induction v using JValue.inductionOn with
  | hnull => intro c hc; rw [dumps] at hc; fin_cases hc <;> decide
  | hbool b => intro c hc; cases b <;> rw [dumps] at hc <;> fin_cases hc <;> decide
  | hnum n => exact intChars_ne_newline n
  | hstr s => intro c hc; rw [dumps] at hc; exact strChars_ne_newline s c hc
  | harr es ih =>
    intro c hc
    rw [dumps] at hc
    rcases List.mem_cons.mp hc with h | h
    · exact h ▸ (by decide)
    · rcases List.mem_append.mp h with h1 | h1
      · exact dumpsElems_ne_newline es ih c h1
      · simp only [List.mem_cons, List.not_mem_nil, or_false] at h1
        exact h1 ▸ (by decide)
  | hobj fs ih =>
    intro c hc
    rw [dumps] at hc
    rcases List.mem_cons.mp hc with h | h
    · exact h ▸ (by decide)
    · rcases List.mem_append.mp h with h1 | h1
      · exact dumpsFields_ne_newline fs ih c h1
      · simp only [List.mem_cons, List.not_mem_nil, or_false] at h1
        exact h1 ▸ (by decide)

/-- C7: for every event name and payload, `_iter_sse` produces exactly the
frame `event: <name>\n` + `data: <json>\n\n`, and the serialized JSON on the
data line never contains a literal newline character, whatever newlines the
payload's string values contain. -/
theorem c7_sse_frame_exact (it : SSEItem) :
    sseFrame it =
      ("event: ".data ++ it.event.data ++ ['\n']) ++
        ("data: ".data ++ dumps (payloadOf it) ++ ['\n', '\n']) ∧
    ∀ c ∈ dumps (payloadOf it), c ≠ '\n' :=
  ⟨rfl, dumps_ne_newline (payloadOf it)⟩

/-- C2: in pretty mode, a non-empty line maps to its fragment as follows —
parse failure gives the raw line; an `item.completed` object whose item has a
recognized conversational type and a string text gives that text; a
`turn.completed` object gives the literal `[turn.completed]` and flags the
recording of the current time as last-turn-completed (which the loop then
stores); any other kind gives the kind name itself. -/
theorem c2_pretty_translation (s : String) (fields : List (String × JValue)) :
    translateLine true s none = some (s, false) ∧
    (∀ (itemFields : List (String × JValue)) (txt ity : String),
      jlookup fields "type" = some (.str "item.completed") →
      jlookup fields "item" = some (.obj itemFields) →
      jlookup itemFields "type" = some (.str ity) →
      (ity = "agent_message" ∨ ity = "reasoning") →
      jlookup itemFields "text" = some (.str txt) →
      translateLine true s (some (.obj fields)) = some (txt, false)) ∧
    (jlookup fields "type" = some (.str "turn.completed") →
      translateLine true s (some (.obj fields)) = some ("[turn.completed]", true)) ∧
    (∀ k, jlookup fields "type" = some (.str k) →
      k ≠ "item.completed" → k ≠ "turn.completed" →
      translateLine true s (some (.obj fields)) = some (k, false)) ∧
    (∀ (tMark : ℚ) (old : Option ℚ), nextLastTurn true tMark old = some tMark) := by
  refine ⟨rfl, ?_, ?_, ?_, fun tMark old => rfl⟩
  · intro itemFields txt ity h1 h2 h3 h4 h5
    rcases h4 with h4 | h4 <;> subst h4 <;>
      simp [translateLine, translateObj, translateOther, typeIs, h1, h2, h3, h5]
  · intro h1
    cases hitem : jlookup fields "item" with
    | none => simp [translateLine, translateObj, translateOther, typeIs, h1, hitem]
    | some v =>
      cases v <;> simp [translateLine, translateObj, translateOther, typeIs, h1, hitem]
  · intro k h1 hk1 hk2
    cases hitem : jlookup fields "item" with
    | none => simp [translateLine, translateObj, translateOther, typeIs, h1, hitem, hk1, hk2]
    | some v =>
      cases v <;>
        simp [translateLine, translateObj, translateOther, typeIs, h1, hitem, hk1, hk2]

/-- Witness for C2: the four translation cases at concrete inputs. -/
theorem c2_pretty_translation_witness :
    translateLine true "x" (some (.obj [("type", JValue.str "turn.completed")])) =
      some ("[turn.completed]", true) ∧
    translateLine true "x" (some (.obj [("type", JValue.str "item.completed"),
      ("item", JValue.obj [("type", JValue.str "agent_message"),
        ("text", JValue.str "hi")])])) = some ("hi", false) ∧
    translateLine true "x" (some (.obj [("type", JValue.str "unknown_kind")])) =
      some ("unknown_kind", false) ∧
    translateLine true "x" none = some ("x", false) :=
  ⟨(c2_pretty_translation "x" _).2.2.1 rfl,
   (c2_pretty_translation "x" _).2.1 _ "hi" "agent_message" rfl rfl rfl (Or.inl rfl) rfl,
   (c2_pretty_translation "x" _).2.2.2.1 "unknown_kind" rfl (by decide) (by decide),
   (c2_pretty_translation "x" []).1⟩

/-- C8: in pretty mode, an `item.completed` object whose `item` is a dict but
whose nested type is not `agent_message`/`reasoning`, or whose `text` is not
a string, passes the raw line through verbatim. -/
theorem c8_unrecognized_item_passthrough (s : String)
    (fields itemFields : List (String × JValue))
    (h1 : jlookup fields "type" = some (.str "item.completed"))
    (h2 : jlookup fields "item" = some (.obj itemFields))
    (h3 : (jlookup itemFields "type" ≠ some (.str "agent_message") ∧
           jlookup itemFields "type" ≠ some (.str "reasoning")) ∨
          (∀ t, jlookup itemFields "text" ≠ some (.str t))) :
    translateLine true s (some (.obj fields)) = some (s, false) := by
  cases hty : jlookup itemFields "type" with
  | none =>
    cases htx : jlookup itemFields "text" with
    | none => simp [translateLine, translateObj, typeIs, h1, h2, hty, htx]
    | some w => cases w <;> simp [translateLine, translateObj, typeIs, h1, h2, hty, htx]
  | some v =>
    cases v with
    | str ity =>
      cases htx : jlookup itemFields "text" with
      | none => simp [translateLine, translateObj, typeIs, h1, h2, hty, htx]
      | some w =>
        cases w with
        | str t =>
          rcases h3 with ⟨ha, hb⟩ | hb
          · have hia : ity ≠ "agent_message" := by
              intro hh; exact ha (hh ▸ hty)
            have hib : ity ≠ "reasoning" := by
              intro hh; exact hb (hh ▸ hty)
            simp [translateLine, translateObj, typeIs, h1, h2, hty, htx, hia, hib]
          · exact absurd htx (hb t)
        | null => simp [translateLine, translateObj, typeIs, h1, h2, hty, htx]
        | bool b => simp [translateLine, translateObj, typeIs, h1, h2, hty, htx]
        | num n => simp [translateLine, translateObj, typeIs, h1, h2, hty, htx]
        | arr es => simp [translateLine, translateObj, typeIs, h1, h2, hty, htx]
        | obj fs => simp [translateLine, translateObj, typeIs, h1, h2, hty, htx]
    | null =>
      cases htx : jlookup itemFields "text" with
      | none => simp [translateLine, translateObj, typeIs, h1, h2, hty, htx]
      | some w => cases w <;> simp [translateLine, translateObj, typeIs, h1, h2, hty, htx]
    | bool b =>
      cases htx : jlookup itemFields "text" with
      | none => simp [translateLine, translateObj, typeIs, h1, h2, hty, htx]
      | some w => cases w <;> simp [translateLine, translateObj, typeIs, h1, h2, hty, htx]
    | num n =>
      cases htx : jlookup itemFields "text" with
      | none => simp [translateLine, translateObj, typeIs, h1, h2, hty, htx]
      | some w => cases w <;> simp [translateLine, translateObj, typeIs, h1, h2, hty, htx]
    | arr es =>
      cases htx : jlookup itemFields "text" with
      | none => simp [translateLine, translateObj, typeIs, h1, h2, hty, htx]
      | some w => cases w <;> simp [translateLine, translateObj, typeIs, h1, h2, hty, htx]
    | obj fs =>
      cases htx : jlookup itemFields "text" with
      | none => simp [translateLine, translateObj, typeIs, h1, h2, hty, htx]
      | some w => cases w <;> simp [translateLine, translateObj, typeIs, h1, h2, hty, htx]

/-- Witness for C8: an `item.completed` whose nested item has an
unrecognized type. -/
theorem c8_unrecognized_item_passthrough_witness :
    translateLine true "raw" (some (.obj [("type", JValue.str "item.completed"),
      ("item", JValue.obj [("type", JValue.str "command_run"),
        ("text", JValue.str "ls")])])) = some ("raw", false) :=
  c8_unrecognized_item_passthrough "raw" _ _ rfl rfl
    (Or.inl ⟨by simp [jlookup], by simp [jlookup]⟩)

/-- C9: a line whose text parses to a non-object JSON value (null, number,
string or array) makes `ev.get` raise `AttributeError` inside the `try`,
which is caught, so no exception escapes the loop and the raw line is
emitted verbatim. -/
theorem c9_nonobject_parse_passthrough (s : String) (n : Int) (t : String)
    (l : List JValue) :
    translateLine true s (some .null) = some (s, false) ∧
    translateLine true s (some (.num n)) = some (s, false) ∧
    translateLine true s (some (.str t)) = some (s, false) ∧
    translateLine true s (some (.arr l)) = some (s, false) :=
  ⟨rfl, rfl, rfl, rfl⟩

/-- `hard_cut` (already clamped by `max(0, ...)`) is truthy exactly when the
configured value was positive. -/
theorem hardCutOf_ne_zero (h : Int) : hardCutOf h ≠ 0 ↔ 0 < h := by
  unfold hardCutOf; omega

/-- Counterexample to C4 as stated.  First: with the hard cutoff disabled and
exactly `idle_after` seconds elapsed since the `turn.completed` marker (which
does not *exceed* the configured idle seconds), the code still breaks — the
source compares with `>=` at line 198, not `>`.  Second: a marker whose
recorded `time.time()` is `0` is falsy in Python, so even though a marker was
seen and far more than the idle seconds elapsed, the code does not break. -/
theorem c4_cutoff_counterexample :
    (cutoffDecision (hardCutOf 0) (idleAfterOf 10) 0 (some 5) 15 15 = true ∧
      hardCutOf 0 = 0 ∧ ¬((15 : ℚ) - 5 > ((idleAfterOf 10 : Int) : ℚ))) ∧
    (cutoffDecision (hardCutOf 0) (idleAfterOf 10) 0 (some 0) 100 100 = false ∧
      (100 : ℚ) - 0 > ((idleAfterOf 10 : Int) : ℚ)) := by
  refine ⟨⟨?_, rfl, by norm_num [idleAfterOf]⟩, ?_, by norm_num [idleAfterOf]⟩
  · norm_num [cutoffDecision, hardCutOf, idleAfterOf]
  · norm_num [cutoffDecision, hardCutOf, idleAfterOf]

/-- C4 (amended): after each line is processed, the loop exits iff the hard
cutoff is active (configured seconds strictly positive; non-positive values
disable it) and elapsed wall time since stream start strictly exceeds the
clamped seconds, or a `turn.completed` marker has been recorded with a
nonzero timestamp and the elapsed time since it is at least (`>=`, not
strictly greater than) the idle seconds clamped to a minimum of 1; otherwise
the loop continues to the next blocking read with the delta for the current
line prepended. -/
theorem c4_cutoff_amended (h i : Int) (start : ℚ) (lastTurn : Option ℚ)
    (tHard tIdle : ℚ) :
    (cutoffDecision (hardCutOf h) (idleAfterOf i) start lastTurn tHard tIdle = true ↔
      ((0 < h ∧ tHard - start > ((hardCutOf h : Int) : ℚ)) ∨
       (∃ u, lastTurn = some u ∧ u ≠ 0 ∧ tIdle - u ≥ ((idleAfterOf i : Int) : ℚ)))) ∧
    (∀ (pretty : Bool) (l : LineIn) (rest : List LineIn) (lt0 : Option ℚ)
        (t : String) (isTurn : Bool),
      l.raw ≠ "" →
      translateLine pretty l.raw l.parsed = some (t, isTurn) →
      (cutoffDecision (hardCutOf h) (idleAfterOf i) start
          (nextLastTurn isTurn l.tMark lt0) l.tHard l.tIdle = true →
        runLoop pretty (hardCutOf h) (idleAfterOf i) start lt0 (l :: rest) =
          ([deltaItem (t ++ "\n")], false)) ∧
      (cutoffDecision (hardCutOf h) (idleAfterOf i) start
          (nextLastTurn isTurn l.tMark lt0) l.tHard l.tIdle = false →
        runLoop pretty (hardCutOf h) (idleAfterOf i) start lt0 (l :: rest) =
          (deltaItem (t ++ "\n") ::
            (runLoop pretty (hardCutOf h) (idleAfterOf i) start
              (nextLastTurn isTurn l.tMark lt0) rest).1,
           (runLoop pretty (hardCutOf h) (idleAfterOf i) start
              (nextLastTurn isTurn l.tMark lt0) rest).2))) := by
  constructor
  · cases lastTurn with
    | none =>
      simp only [cutoffDecision]
      split_ifs with hif
      · simp only [true_iff]
        exact Or.inl ⟨(hardCutOf_ne_zero h).mp hif.1, hif.2⟩
      · simp only [Bool.false_eq_true, false_iff]
        rintro (⟨h1, h2⟩ | ⟨u, hu, _⟩)
        · exact hif ⟨(hardCutOf_ne_zero h).mpr h1, h2⟩
        · exact hu
    | some u =>
      simp only [cutoffDecision]
      split_ifs with hif
      · simp only [true_iff]
        exact Or.inl ⟨(hardCutOf_ne_zero h).mp hif.1, hif.2⟩
      · constructor
        · intro hd
          simp only [decide_eq_true_eq, Bool.and_eq_true] at hd
          exact Or.inr ⟨u, rfl, hd.1, hd.2⟩
        · rintro (⟨h1, h2⟩ | ⟨w, hw, hw0, hwge⟩)
          · exact absurd ⟨(hardCutOf_ne_zero h).mpr h1, h2⟩ hif
          · cases hw
            simp only [decide_eq_true_eq, Bool.and_eq_true]
            exact ⟨hw0, hwge⟩
  · intro pretty l rest lt0 t isTurn hraw htr
    constructor
    · intro hcd
      simp only [runLoop, if_neg hraw, htr, hcd, if_true]
    · intro hcd
      simp only [runLoop, if_neg hraw, htr, hcd, Bool.false_eq_true, if_false]

/-- Witness for C4 (amended): a concrete line on which no cutoff fires, so
the loop emits the delta and continues. -/
theorem c4_cutoff_amended_witness :
    ("hello" : String) ≠ "" ∧
    translateLine true "hello" none = some ("hello", false) ∧
    cutoffDecision (hardCutOf 0) (idleAfterOf 10) 0
      (nextLastTurn false (1 : ℚ) none) 2 3 = false ∧
    runLoop true (hardCutOf 0) (idleAfterOf 10) 0 none [⟨"hello", none, 1, 2, 3⟩] =
      (deltaItem ("hello" ++ "\n") ::
        (runLoop true (hardCutOf 0) (idleAfterOf 10) 0
          (nextLastTurn false (1 : ℚ) none) []).1,
       (runLoop true (hardCutOf 0) (idleAfterOf 10) 0
          (nextLastTurn false (1 : ℚ) none) []).2) :=
  ⟨by decide, rfl, rfl,
   ((c4_cutoff_amended 0 10 0 none 0 0).2 true ⟨"hello", none, 1, 2, 3⟩ [] none
      "hello" false (by decide) rfl).2 rfl⟩

/-- C1: whenever the generator runs to completion (normal end-of-output, a
hard or idle cutoff, or the caught launch failure — i.e. it was not aborted
by an uncaught exception), the item sequence it yields begins with exactly
`message_start`, `content_block_start` and ends with exactly
`content_block_stop`, `message_delta` (whose usage object is zeroed),
`message_stop`, in that order. -/
theorem c1_stream_bracketing (launch : LaunchOutcome) (pretty : Bool)
    (hardCut idleAfter : Int) (start : ℚ) (lines : List LineIn) (stderrTail : String)
    (h : (runGenerate launch pretty hardCut idleAfter start lines stderrTail).2 = false) :
    ∃ mid, (runGenerate launch pretty hardCut idleAfter start lines stderrTail).1 =
        messageStartItem :: contentBlockStartItem ::
          (mid ++ [contentBlockStopItem, messageDeltaItem, messageStopItem]) ∧
      messageDeltaItem.data = some (.obj [("type", .str "message_delta"),
        ("delta", .obj []),
        ("usage", .obj [("input_tokens", .num 0), ("output_tokens", .num 0)])]) := by
  cases launch with
  | notFound =>
    exact ⟨[deltaItem codexNotFoundMsg],
      by simp [runGenerate, openingItems, closingItems], rfl⟩
  | otherError => simp [runGenerate] at h
  | ok =>
    by_cases hr : (runLoop pretty hardCut idleAfter start none lines).2 = true
    · simp [runGenerate, hr] at h
    · refine ⟨(runLoop pretty hardCut idleAfter start none lines).1 ++
        stderrItems stderrTail, ?_, rfl⟩
      simp only [Bool.not_eq_true] at hr
      simp [runGenerate, hr, openingItems, closingItems, List.append_assoc]

/-- Witness for C1: a run with no subprocess output and a blank stderr tail. -/
theorem c1_stream_bracketing_witness :
    (runGenerate .ok true 0 10 0 [] "").2 = false ∧
    ∃ mid, (runGenerate .ok true 0 10 0 [] "").1 =
        messageStartItem :: contentBlockStartItem ::
          (mid ++ [contentBlockStopItem, messageDeltaItem, messageStopItem]) ∧
      messageDeltaItem.data = some (.obj [("type", .str "message_delta"),
        ("delta", .obj []),
        ("usage", .obj [("input_tokens", .num 0), ("output_tokens", .num 0)])]) :=
  ⟨rfl, c1_stream_bracketing .ok true 0 10 0 [] "" rfl⟩

/-- C5: when the executable is missing (`FileNotFoundError` at launch), the
already-opened stream carries exactly one `content_block_delta`, holding the
agent-not-available text, immediately followed by the three normal closing
events; the generator does not abort (no HTTP-level failure) and the result
does not depend on the subprocess lines or stderr — no subprocess I/O
happens. -/
theorem c5_launch_failure_stream (pretty : Bool) (hardCut idleAfter : Int)
    (start : ℚ) (lines : List LineIn) (stderrTail : String) :
    runGenerate .notFound pretty hardCut idleAfter start lines stderrTail =
      ([messageStartItem, contentBlockStartItem, deltaItem codexNotFoundMsg,
        contentBlockStopItem, messageDeltaItem, messageStopItem], false) ∧
    ((runGenerate .notFound pretty hardCut idleAfter start lines stderrTail).1.filter
        (fun it => it.event = "content_block_delta")).length = 1 :=
  ⟨rfl, rfl⟩

/-- Counterexample to C6 as stated.  First: an unparsable body does not
return the default 128 — `request.get_json(force=True, silent=True)` returns
`None` without raising, `or \x7b\x7d` turns it into the empty object, and the
estimate is `max(32, len("\x7b\x7d")/4) = 32`; the `except` branch returning 128 is
unreachable.  Second: the estimate divides the *character* count of the
serialized body, not its byte length: for a body whose serialization holds
70 two-byte characters (79 characters, 149 UTF-8 bytes) the code returns 32
while the byte-length formula gives 37. -/
theorem c6_count_tokens_counterexample :
    count_tokens_resp none = (32, 0) ∧ (32 : Nat) ≠ 128 ∧
    count_tokens_resp
      (some (.obj [("k", .str (String.mk (List.replicate 70 'é')))])) = (32, 0) ∧
    max 32 (utf8Length
      (dumps (.obj [("k", .str (String.mk (List.replicate 70 'é')))])) / 4) = 37 ∧
    (32 : Nat) ≠ 37 :=
  ⟨rfl, by decide, by decide, by decide, by decide⟩

/-- C6 (amended): `count_tokens` answers 200 with `output_tokens = 0` and
`input_tokens = max(32, c/4)` where `c` is the number of characters of the
serialized body (a parsed-but-falsy body is first replaced by the empty
object, as is an unparsable one, for which the result is therefore
`max(32, len("\x7b\x7d")/4) = 32`, not 128). -/
theorem c6_count_tokens_amended :
    (∀ v : JValue, pyFalsy v = false →
      count_tokens_resp (some v) = (max 32 ((dumps v).length / 4), 0)) ∧
    count_tokens_resp none = (32, 0) := by
  constructor
  · intro v hv
    simp [count_tokens_resp, hv]
  · rfl

/-- Witness for C6 (amended): the body from the spec's own example. -/
theorem c6_count_tokens_amended_witness :
    pyFalsy (JValue.obj [("messages", JValue.arr [])]) = false ∧
    count_tokens_resp (some (JValue.obj [("messages", JValue.arr [])])) =
      (max 32 ((dumps (JValue.obj [("messages", JValue.arr [])])).length / 4), 0) :=
  ⟨rfl, c6_count_tokens_amended.1 _ rfl⟩

/-- C3: the working-directory resolver tries, in order, the path named in the
prompt's marker line (used only when non-empty after quote-stripping and
existing on disk), then the configured default stripped of whitespace (used
only when non-empty and existing), then the process's own current directory.
It is a total function — no error is ever raised. -/
theorem c3_select_cwd_precedence (fs : String → Bool) (cfg cwd prompt : String) :
    (∀ p, parse_cwd_from_prompt prompt = some p → p ≠ "" → fs p = true →
      select_cwd fs cfg cwd prompt = p) ∧
    ((∀ p, parse_cwd_from_prompt prompt = some p → p = "" ∨ fs p = false) →
      (stripWsStr cfg ≠ "" → fs (stripWsStr cfg) = true →
        select_cwd fs cfg cwd prompt = stripWsStr cfg) ∧
      ((stripWsStr cfg = "" ∨ fs (stripWsStr cfg) = false) →
        select_cwd fs cfg cwd prompt = cwd)) := by
  constructor
  · intro p hp hne hfs
    simp [select_cwd, hp, hne, hfs]
  · intro hbad
    constructor
    · intro hcfgne hcfs
      cases hp : parse_cwd_from_prompt prompt with
      | none => simp [select_cwd, hp, selectEnvFallback, hcfgne, hcfs]
      | some p =>
        rcases hbad p hp with h0 | h0
        · simp [select_cwd, hp, h0, selectEnvFallback, hcfgne, hcfs]
        · simp [select_cwd, hp, h0, selectEnvFallback, hcfgne, hcfs]
    · intro hcfg
      rcases hcfg with h0 | h0 <;>
        cases hp : parse_cwd_from_prompt prompt with
        | none => simp [select_cwd, hp, selectEnvFallback, h0]
        | some p =>
          rcases hbad p hp with h1 | h1 <;>
            simp [select_cwd, hp, h1, selectEnvFallback, h0]

/-- Witness for C3: a prompt naming an existing directory wins over the
configuration. -/
theorem c3_select_cwd_precedence_witness :
    parse_cwd_from_prompt "Working directory: /tmp/x" = some "/tmp/x" ∧
    ("/tmp/x" : String) ≠ "" ∧
    (fun s => s == "/tmp/x") "/tmp/x" = true ∧
    select_cwd (fun s => s == "/tmp/x") "/etc/default" "/cwd"
      "Working directory: /tmp/x" = "/tmp/x" :=
  ⟨by decide, by decide, rfl,
   (c3_select_cwd_precedence (fun s => s == "/tmp/x") "/etc/default" "/cwd"
      "Working directory: /tmp/x").1 "/tmp/x" (by decide) (by decide) rfl⟩

/-- Matching a pattern against the text that carries it (up to ASCII case)
consumes exactly the pattern's length. -/
theorem caseMatch_self_lower : ∀ (u rest : List Char),
    caseMatch (u.map Char.toLower) (u ++ rest) = some rest := by
  intro u
  induction u with
  | nil => intro rest; rfl
  | cons c cs ih => intro rest; simp [caseMatch, ih]

theorem takeWhile_all (q : Char → Bool) :
    ∀ l : List Char, (∀ c ∈ l, q c = true) → l.takeWhile q = l := by
  intro l
  induction l with
  | nil => intro _; rfl
  | cons c cs ih =>
    intro h
    simp [List.takeWhile_cons, h c (by simp), ih (fun d hd => h d (by simp [hd]))]

theorem dropWhile_all_neg (q : Char → Bool) :
    ∀ l : List Char, (∀ c ∈ l, q c = false) → l.dropWhile q = l := by
  intro l
  induction l with
  | nil => intro _; rfl
  | cons c cs ih => intro h; simp [List.dropWhile_cons, h c (by simp)]

/-- Stripping characters none of which occur at either end is the identity. -/
theorem stripWith_all_neg (q : Char → Bool) (l : List Char)
    (h : ∀ c ∈ l, q c = false) : stripWith q l = l := by
  unfold stripWith
  rw [dropWhile_all_neg q l h, dropWhile_all_neg q l.reverse
    (fun c hc => h c (List.mem_reverse.mp hc)), List.reverse_reverse]

/-- `strip` removes one layer of surrounding quotes from a quote-free core. -/
theorem stripWith_quotes (p : List Char) (hne : p ≠ [])
    (h : ∀ c ∈ p, c ≠ '"') :
    stripWith (fun c => c = '"') ('"' :: p ++ ['"']) = p := by
  cases p with
  | nil => exact absurd rfl hne
  | cons a m =>
    unfold stripWith
    have h1 : List.dropWhile (fun c => c = '"') ('"' :: (a :: m) ++ ['"']) =
        (a :: m) ++ ['"'] := by
      simp only [List.cons_append, List.dropWhile_cons]
      simp [h a (by simp)]
    rw [h1]
    have h2 : ((a :: m) ++ ['"']).reverse = '"' :: (a :: m).reverse := by
      simp
    rw [h2, List.dropWhile_cons]
    simp only [decide_True, if_true]
    rw [dropWhile_all_neg _ (a :: m).reverse
      (fun c hc => by simp [h c (List.mem_reverse.mp hc)])]
    simp

/-- `re.search` skips every position whose first character cannot open the
(case-insensitive) marker. -/
theorem searchAux_skip (pre rest : List Char) (h : ∀ c ∈ pre, c.toLower ≠ 'w') :
    searchAux (pre ++ rest) = searchAux rest := by
  induction pre with
  | nil => rfl
  | cons c cs ih =>
    have hc : c.toLower ≠ 'w' := h c (by simp)
    have hm : caseMatch markerChars (c :: (cs ++ rest)) = none := by
      have hmk : markerChars = 'w' :: "orking directory:".data := rfl
      rw [hmk, caseMatch]
      simp [hc]
    have hm2 : caseMatch markerChars (c :: cs.append rest) = none := hm
    simp only [List.cons_append, searchAux, hm2]
    exact ih (fun d hd => h d (by simp [hd]))

/-- At a position carrying the marker (in any casing), `re.search` returns
the group for the remainder, when one exists. -/
theorem searchAux_match (u rest g : List Char) (hu : u.map Char.toLower = markerChars)
    (hg : groupAfterColon rest = some g) :
    searchAux (u ++ rest) = some g := by
  cases u with
  | nil =>
    exfalso
    have hmk : markerChars ≠ [] := by decide
    exact hmk (hu ▸ rfl)
  | cons c cs =>
    have hm : caseMatch markerChars (c :: (cs ++ rest)) = some rest := by
      have hcm := caseMatch_self_lower (c :: cs) rest
      rw [hu] at hcm
      simpa using hcm
    have hm2 : caseMatch markerChars (c :: cs.append rest) = some rest := hm
    simp only [List.cons_append, searchAux, hm2, hg]

/-- `\s*(.+)` applied after the marker, to a space, a double-quoted
whitespace-free path, and nothing else: the group is the quoted path. -/
theorem groupAfterColon_quoted (p : List Char)
    (h : ∀ c ∈ p, pySpace c = false) :
    groupAfterColon (' ' :: '"' :: p ++ ['"']) = some ('"' :: p ++ ['"']) := by
  have hr : List.dropWhile pySpace (' ' :: '"' :: p ++ ['"']) = '"' :: p ++ ['"'] := by
    simp only [List.cons_append]
    rw [List.dropWhile_cons_of_pos (by decide : pySpace ' ' = true),
        List.dropWhile_cons_of_neg (by decide : ¬ pySpace '"' = true)]
  have hne : ('"' :: p ++ ['"'] : List Char) ≠ [] := by simp
  have hall : ∀ c ∈ ('"' :: p ++ ['"'] : List Char), (decide (c ≠ '\n')) = true := by
    intro c hc
    simp only [List.cons_append, List.mem_cons, List.mem_append,
      List.not_mem_nil, or_false] at hc
    rcases hc with rfl | hc | rfl
    · decide
    · have hcp := h c hc
      simp only [decide_eq_true_eq]
      intro hcn
      subst hcn
      exact absurd hcp (by decide)
    · decide
  simp only [groupAfterColon, hr, hne, if_true, ne_eq, not_false_iff]
  rw [takeWhile_all _ _ hall]

/-- C10: the marker is matched case-insensitively and anywhere in the prompt
(shown for an arbitrary prefix that cannot open the marker and an arbitrary
casing of it, with surrounding double quotes stripped from the captured
path); when the marker occurs twice only the first occurrence is used; and
quotes are stripped before the existence check, as the resolver consults the
filesystem oracle with the stripped path. -/
theorem c10_marker_parsing :
    (∀ (pre u p : List Char),
      (∀ c ∈ pre, c.toLower ≠ 'w') →
      u.map Char.toLower = markerChars →
      p ≠ [] →
      (∀ c ∈ p, pySpace c = false ∧ c ≠ '"' ∧ c ≠ Char.ofNat 39) →
      parse_cwd_chars (pre ++ u ++ (' ' :: '"' :: p ++ ['"'])) = some p) ∧
    parse_cwd_from_prompt "Working directory: /a\nWorking directory: /b" = some "/a" ∧
    select_cwd (fun s => s == "/x") "" "/cwd" "wORKING dIRECTORY: \x27/x\x27" = "/x" := by
  refine ⟨fun pre u p hpre hu hne hp => ?_, by decide, by decide⟩
  unfold parse_cwd_chars
  rw [List.append_assoc, searchAux_skip pre _ hpre,
    searchAux_match u _ _ hu (groupAfterColon_quoted p (fun c hc => (hp c hc).1))]
  simp only [Option.map_some']
  have hws : stripWith pySpace ('"' :: p ++ ['"']) = '"' :: p ++ ['"'] := by
    refine stripWith_all_neg pySpace _ ?_
    intro c hc
    simp only [List.cons_append, List.mem_cons, List.mem_append,
      List.not_mem_nil, or_false] at hc
    rcases hc with rfl | hc | rfl
    · decide
    · exact (hp c hc).1
    · decide
  have hq : stripWith (fun c => c = '"') ('"' :: p ++ ['"']) = p :=
    stripWith_quotes p hne (fun c hc => (hp c hc).2.1)
  have hsq : stripWith (fun c => c = Char.ofNat 39) p = p := by
    refine stripWith_all_neg _ p ?_
    intro c hc
    simp only [decide_eq_false_iff_not]
    exact (hp c hc).2.2
  rw [hws, hq, hsq]

/-- Witness for C10: a digit-and-space prefix, a mixed-case marker and a
double-quoted path. -/
theorem c10_marker_parsing_witness :
    (∀ c ∈ ("12 ".data : List Char), c.toLower ≠ 'w') ∧
    ("Working Directory:".data).map Char.toLower = markerChars ∧
    ("/tmp/y".data : List Char) ≠ [] ∧
    (∀ c ∈ ("/tmp/y".data : List Char),
      pySpace c = false ∧ c ≠ '"' ∧ c ≠ Char.ofNat 39) ∧
    parse_cwd_chars ("12 ".data ++ "Working Directory:".data ++
      (' ' :: '"' :: "/tmp/y".data ++ ['"'])) = some "/tmp/y".data :=
  ⟨by decide, by decide, by decide, by decide,
   c10_marker_parsing.1 _ _ _ (by decide) (by decide) (by decide) (by decide)⟩
